import Mathlib

/-!
Verification of `falcon_kit/util/io.py` (process-output readers, line
splitting, FOFN validation, and the deprecated `syscall` helper).

Python text values (`str`) are modelled as `List Char`; the child process
behind a `Popen` handle is modelled by the text it writes to stdout (after
universal-newline translation, which both reader variants request) together
with its eventual exit code.  Exceptions are modelled as explicit values,
state mutation as explicit state passing.
-/

set_option autoImplicit false

namespace FalconIo

/-- Python `str`, modelled as a list of characters. -/
abbrev PyStr := List Char

/-- Shorthand to build a `PyStr` from a Lean string literal. -/
def pyS (s : String) : PyStr := s.data

/-- Membership of Python's whitespace set, as used by no-argument
`str.strip`/`str.rstrip`/`str.split` (CPython `Py_UNICODE_ISSPACE`):
`\t\n\v\f\r` (0x09-0x0d), the separators 0x1c-0x1f, space, and the
non-ASCII Unicode space characters (NEL, NBSP, ogham space, the en/em
spaces 0x2000-0x200a, line/paragraph separator, narrow NBSP, math space,
ideographic space). -/
def pyIsSpace (c : Char) : Bool :=
  let n := c.toNat
  (9 ≤ n && n ≤ 13) || (28 ≤ n && n ≤ 32) || n = 0x85 || n = 0xa0
    || n = 0x1680 || (0x2000 ≤ n && n ≤ 0x200a) || n = 0x2028 || n = 0x2029
    || n = 0x202f || n = 0x205f || n = 0x3000

/-- Python `str.rstrip()` with no argument: drop all trailing whitespace. -/
def rstrip (s : PyStr) : PyStr :=
  (s.reverse.dropWhile pyIsSpace).reverse

/-- Python `str.lstrip()` with no argument: drop all leading whitespace. -/
def lstrip (s : PyStr) : PyStr :=
  s.dropWhile pyIsSpace

/-- Python `str.strip()` with no argument. -/
def pyStrip (s : PyStr) : PyStr :=
  rstrip (lstrip s)

/-- Whether the text ends in a newline character. -/
def endsNL (s : PyStr) : Bool :=
  s.getLast? = some '\n'

/-- Tail-worker for `splitlines_iter`: `acc` holds the (reversed) characters
of the line segment read since the previous newline.  This fuses the
index-walking loop of the source (`text.find` from `prevnl + 1`) into one
structural pass: each `'\n'` yields the segment before it, and the final
fragment is yielded only when non-empty (`(prevnl + 1) != len(text)`). -/
def splitlinesGo : PyStr → PyStr → List PyStr
  | [], acc => if acc = [] then [] else [acc.reverse]
  | c :: cs, acc =>
    if c = '\n' then acc.reverse :: splitlinesGo cs []
    else splitlinesGo cs (c :: acc)

/-- `splitlines_iter(text)` from `falcon_kit/util/io.py` (the list of all
yielded lines). -/
def splitlines_iter (text : PyStr) : List PyStr :=
  splitlinesGo text []

/-- Tail-worker for `iterLines`. -/
def iterLinesGo : PyStr → PyStr → List PyStr
  | [], acc => if acc = [] then [] else [acc.reverse]
  | c :: cs, acc =>
    if c = '\n' then (acc.reverse ++ ['\n']) :: iterLinesGo cs []
    else iterLinesGo cs (c :: acc)

/-- Iterating a text-mode file object in Python (`for line in f`): each line
keeps its trailing `'\n'`; a final fragment with no newline is yielded as is. -/
def iterLines (text : PyStr) : List PyStr :=
  iterLinesGo text []

/-- Python `text.split(sep)` for a one-character separator: every segment,
including empty ones and a trailing empty segment. -/
def splitOnGo (sep : Char) : PyStr → PyStr → List PyStr
  | [], acc => [acc.reverse]
  | c :: cs, acc =>
    if c = sep then acc.reverse :: splitOnGo sep cs []
    else splitOnGo sep cs (c :: acc)

/-- Python `text.split(sep)` (one-character separator). -/
def splitOn (sep : Char) (s : PyStr) : List PyStr :=
  splitOnGo sep s []

/-- The literal stdout lines of a text that does not end in a newline:
every newline-separated segment (and none for empty output).  This is the
spec-side notion "the command's literal stdout lines". -/
def specLines (out : PyStr) : List PyStr :=
  if out = [] then [] else splitOn '\n' out

/-- Join lines with a single newline between consecutive lines. -/
def joinNL : List PyStr → PyStr
  | [] => []
  | [l] => l
  | l :: ls => l ++ '\n' :: joinNL ls

section SplitlinesExamples

example : splitlines_iter (pyS "") = [] := by decide
example : splitlines_iter (pyS "a\nb") = [pyS "a", pyS "b"] := by decide
example : splitlines_iter (pyS "a\nb\n") = [pyS "a", pyS "b"] := by decide
example : splitlines_iter (pyS "a\nb\n\n") = [pyS "a", pyS "b", pyS ""] := by decide
example : iterLines (pyS "a\nb") = [pyS "a\n", pyS "b"] := by decide
example : specLines (pyS "a \nb") = [pyS "a ", pyS "b"] := by decide
example : rstrip (pyS "a \n") = pyS "a" := by decide

end SplitlinesExamples

/-! ## Python repr, as used by `%r` formatting in the source's messages -/

/-- Lower-case hexadecimal digit. -/
def hexDigit (n : Nat) : Char :=
  if n < 10 then Char.ofNat (48 + n) else Char.ofNat (87 + n)

/-- Escaping of one character inside Python `repr` of a string, for the
chosen quote character `q`. -/
def reprEsc (q c : Char) : PyStr :=
  if c = '\\' then ['\\', '\\']
  else if c = q then ['\\', q]
  else if c = '\n' then ['\\', 'n']
  else if c = '\r' then ['\\', 'r']
  else if c = '\t' then ['\\', 't']
  else if c.toNat < 32 || c.toNat = 127 then
    ['\\', 'x', hexDigit (c.toNat / 16), hexDigit (c.toNat % 16)]
  else [c]

/-- Python `repr` of an (ASCII) string: single quotes, switching to double
quotes when the string holds a single quote but no double quote. -/
def pyReprStr (s : PyStr) : PyStr :=
  let q : Char := if '\x27' ∈ s ∧ ¬ ('"' ∈ s) then '"' else '\x27'
  q :: (s.map (reprEsc q)).flatten ++ [q]

/-- Python `repr` of an integer (decimal). -/
def intRepr (i : Int) : PyStr :=
  if i < 0 then '-' :: Nat.toDigits 10 (-i).toNat
  else Nat.toDigits 10 i.toNat

/-! ## Exceptions and the process model -/

/-- Python values that appear in exception argument tuples here. -/
inductive PyVal where
  | int (i : Int)
  | str (s : PyStr)
deriving DecidableEq

/-- The Python exceptions the modelled code can raise or see. -/
inductive PyExc where
  /-- Builtin `Exception(*args)`. -/
  | exc (args : List PyVal)
  /-- A caller-raised `ValueError(*args)` (stands for any with-block error). -/
  | valueError (args : List PyVal)
  /-- `AssertionError(*args)` from a failing `assert`. -/
  | assertionError (args : List PyVal)
  /-- `subprocess.CalledProcessError` from `check_output`. -/
  | calledProcessError (returncode : Int) (cmd : PyStr)
  /-- `AttributeError` from touching a deleted attribute. -/
  | attributeError
deriving DecidableEq

/-- The argument tuple the exception carries (its exposed payload). -/
def PyExc.args : PyExc → List PyVal
  | .exc a => a
  | .valueError a => a
  | .assertionError a => a
  | .calledProcessError rc cmd => [.int rc, .str cmd]
  | .attributeError => []

/-- Behavior of the child process a command spawns: the text it writes to
stdout (after universal-newline translation) and its eventual exit code. -/
structure Child where
  stdout : PyStr
  code : Int
deriving DecidableEq

/-- A `subprocess.Popen` handle.  `returncode` is `none` until a
`wait()`/`communicate()` harvests the exit status. -/
structure Proc where
  stdout : PyStr
  code : Int
  returncode : Option Int
deriving DecidableEq

/-- The state of a `ProcessReaderContext` object: `proc` is `none` before
`__enter__` and after `del self.proc`; `returncode` is the attribute set by
`__exit__`. -/
structure Reader where
  cmd : PyStr
  proc : Option Proc := none
  returncode : Option Int := none
deriving DecidableEq

/-- `ProcessReaderContext.__enter__`: spawn the child (the environment
answers the spawn of `cmd` with behavior `child`); its status is not yet
harvested. -/
def Reader.enter (r : Reader) (child : Child) : Reader :=
  { r with proc := some ⟨child.stdout, child.code, none⟩ }

/-- `ProcessReaderContext.__exit__(etype, ...)`, faithful to statement
order: wait only when no exception is in flight, then read
`self.proc.returncode` into `self.returncode`, raise when it is truthy
(before ever reaching `del self.proc`), and only otherwise delete the
handle.  Returns the exception raised by `__exit__` itself (if any)
together with the updated object state. -/
def Reader.exitR (r : Reader) (etype : Option PyExc) : Option PyExc × Reader :=
  match r.proc with
  | none => (some .attributeError, r)
  | some p =>
    let p2 := match etype with
      | none => { p with returncode := some p.code }
      | some _ => p
    let r2 := { r with proc := some p2, returncode := p2.returncode }
    match p2.returncode with
    | some n =>
      if n = 0 then (none, { r2 with proc := none })
      else
        (some (.exc [.str (intRepr n ++ pyS " <- " ++ pyReprStr r.cmd)]), r2)
    | none => (none, { r2 with proc := none })

/-- `CapturedProcessReaderContext.readlines`: `communicate()` waits for the
child (harvesting its exit status into the handle) and returns the whole
output, which is then split with `splitlines_iter`.  `none` models the
`AttributeError` of reading outside the scope. -/
def CapturedProcessReaderContext.readlines (r : Reader) :
    Option (List PyStr × Reader) :=
  match r.proc with
  | none => none
  | some p =>
    some (splitlines_iter p.stdout,
          { r with proc := some { p with returncode := some p.code } })

/-- `StreamedProcessReaderContext.readlines`: iterate the stdout pipe line
by line (each raw line keeps its `'\n'`), yielding `line.rstrip()`.
Iteration never harvests the exit status. -/
def StreamedProcessReaderContext.readlines (r : Reader) :
    Option (List PyStr × Reader) :=
  match r.proc with
  | none => none
  | some p => some ((iterLines p.stdout).map rstrip, r)

/-- One full `with CapturedProcessReaderContext(cmd):` execution in which
the with-block drains `readlines()` and then finishes with `body lines`
(`.ok ()` for a clean block, `.error e` for a caller exception `e`).
Returns the exception propagating out of the scope (if any; an exception
raised by `__exit__` replaces the in-flight one, per the `with` protocol)
and the final reader state. -/
def runCaptured (cmd : PyStr) (child : Child)
    (body : List PyStr → Except PyExc Unit) : Option PyExc × Reader :=
  let r1 := Reader.enter { cmd := cmd } child
  match CapturedProcessReaderContext.readlines r1 with
  | none => (some .attributeError, r1)
  | some (lines, r2) =>
    let etype : Option PyExc := match body lines with
      | .ok _ => none
      | .error e => some e
    let (raised, r3) := r2.exitR etype
    (match raised with
     | some e => some e
     | none => etype, r3)

/-- One full `with StreamedProcessReaderContext(cmd):` execution, with the
with-block draining the stream and finishing with `body lines`. -/
def runStreamed (cmd : PyStr) (child : Child)
    (body : List PyStr → Except PyExc Unit) : Option PyExc × Reader :=
  let r1 := Reader.enter { cmd := cmd } child
  match StreamedProcessReaderContext.readlines r1 with
  | none => (some .attributeError, r1)
  | some (lines, r2) =>
    let etype : Option PyExc := match body lines with
      | .ok _ => none
      | .error e => some e
    let (raised, r3) := r2.exitR etype
    (match raised with
     | some e => some e
     | none => etype, r3)

section ReaderExamples

example :
    (runCaptured (pyS "seq 2") ⟨pyS "1\n2\n", 0⟩ (fun _ => .ok ())).1
      = none := by decide

example :
    (runCaptured (pyS "false") ⟨pyS "", 1⟩ (fun _ => .ok ())).1
      = some (.exc [.str (pyS "1 <- \x27false\x27")]) := by decide

example :
    (runCaptured (pyS "x") ⟨pyS "", 3⟩
        (fun _ => .error (.valueError [.str (pyS "boom")]))).1
      = some (.exc [.str (pyS "3 <- \x27x\x27")]) := by decide

example :
    (runStreamed (pyS "x") ⟨pyS "", 3⟩
        (fun _ => .error (.valueError [.str (pyS "boom")]))).1
      = some (.valueError [.str (pyS "boom")]) := by decide

end ReaderExamples

/-! ## The deprecated single-shot capture helper `syscall` -/

/-- `syscall(cmd)`: run `check_output` (which raises `CalledProcessError`
on a non-zero exit), log a warning when the output is empty, and return the
output.  The result also carries the list of messages passed to `LOG`, in
order. -/
def syscall (cmd : PyStr) (child : Child) :
    Except PyExc (PyStr × List PyStr) :=
  let logs0 : List PyStr :=
    [pyS "DEPRECATED falcon_kit.util.io.syscall()",
     pyS "$ " ++ pyReprStr cmd ++ pyS " >"]
  if child.code = 0 then
    let output := child.stdout
    if output = [] then
      .ok (output,
        logs0 ++ [pyS "WARNING: " ++ pyReprStr cmd
                    ++ pyS " failed to produce any output."])
    else .ok (output, logs0)
  else .error (.calledProcessError child.code cmd)

/-! ## POSIX path helpers used by `yield_validated_fns` -/

/-- `os.path.isabs` on POSIX: the path starts with a slash. -/
def isabs (p : PyStr) : Bool :=
  match p with
  | '/' :: _ => true
  | _ => false

/-- `posixpath.join(a, b)` for two arguments. -/
def joinPath (a b : PyStr) : PyStr :=
  if isabs b then b
  else if a = [] then b
  else if a.getLast? = some '/' then a ++ b
  else a ++ '/' :: b

/-- The component-collapsing fold inside `posixpath.normpath`:
`''`/`'.'` components are dropped beforehand; `'..'` pops the previous
component except at the start of a relative path or after another `'..'`. -/
def normComps (slashes : Nat) (comps : List PyStr) : List PyStr :=
  comps.foldl (fun acc comp =>
    if comp ≠ ['.', '.'] ∨ (slashes = 0 ∧ acc = [])
        ∨ acc.getLast? = some ['.', '.'] then acc ++ [comp]
    else if acc ≠ [] then acc.dropLast
    else acc) []

/-- `posixpath.normpath`. -/
def normpath (p : PyStr) : PyStr :=
  if p = [] then ['.']
  else
    let slashes : Nat :=
      if p.take 2 = ['/', '/'] ∧ p.take 3 ≠ ['/', '/', '/'] then 2
      else if isabs p then 1 else 0
    let comps := (splitOn '/' p).filter (fun c => c ≠ [] ∧ c ≠ ['.'])
    let res := List.replicate slashes '/'
        ++ List.intercalate ['/'] (normComps slashes comps)
    if res = [] then ['.'] else res

/-- `posixpath.abspath(p)` with current working directory `cwd`. -/
def abspath (cwd p : PyStr) : PyStr :=
  normpath (if isabs p then p else joinPath cwd p)

/-- Length of the longest common prefix of two component lists
(`posixpath.commonprefix` as used by `relpath`). -/
def commonLen : List PyStr → List PyStr → Nat
  | a :: as, b :: bs => if a = b then commonLen as bs + 1 else 0
  | _, _ => 0

/-- `posixpath.relpath(p)` against start `'.'`, with working directory
`cwd`. -/
def relpath (p cwd : PyStr) : PyStr :=
  let sList := (splitOn '/' (abspath cwd ['.'])).filter (· ≠ [])
  let pList := (splitOn '/' (abspath cwd p)).filter (· ≠ [])
  let i := commonLen sList pList
  let rel := List.replicate (sList.length - i) ['.', '.'] ++ pList.drop i
  if rel = [] then ['.'] else List.intercalate ['/'] rel

/-! ## FOFN validation (`yield_validated_fns` / `validated_fns`) -/

/-- Python `str.split()` with no argument, worker. -/
def splitWSGo : PyStr → PyStr → List PyStr
  | [], acc => if acc = [] then [] else [acc.reverse]
  | c :: cs, acc =>
    if pyIsSpace c then
      if acc = [] then splitWSGo cs [] else acc.reverse :: splitWSGo cs []
    else splitWSGo cs (c :: acc)

/-- Python `str.split()` with no argument: whitespace runs separate the
words, with no empty entries. -/
def pySplitWS (s : PyStr) : List PyStr :=
  splitWSGo s []

/-- The environment a FOFN validation runs in.  `deser` is the outcome of
`deserialize(fofn)` — that function lives in `falcon_kit/io.py`, outside
the sources at hand, so (modelled from the spec: "structured-data format
first") it is an oracle that either returns the parsed list of names or
fails (`none`), triggering the plain-text fallback.  `content` is the raw
text of the fofn file; `realdir` is
`os.path.normpath(os.path.dirname(os.path.realpath(fofn)))`; `isfile` and
`filesize` answer the filesystem queries, resolved against `cwd`. -/
structure FofnEnv where
  cwd : PyStr
  realdir : PyStr
  deser : Option (List PyStr)
  content : PyStr
  isfile : PyStr → Bool
  filesize : PyStr → Nat

/-- The list of names the validator iterates over: the structured parse
when `deserialize` succeeds, otherwise the whitespace-split text. -/
def listedFns (env : FofnEnv) : List PyStr :=
  match env.deser with
  | some fns => fns
  | none => pySplitWS (pyStrip env.content)

/-- The name each filesystem check is made against: absolute names are
kept; relative ones are joined onto the manifest's own directory and then
re-expressed relative to the working directory. -/
def resolveFn (env : FofnEnv) (fn : PyStr) : PyStr :=
  if isabs fn then fn
  else normpath (relpath (joinPath env.realdir fn) env.cwd)

/-- The `for fn in fns` loop of `yield_validated_fns`: `assert fn`, resolve,
`assert os.path.isfile(fn)`, `assert filesize(fn)`, yield; the first failing
assertion aborts the whole validation. -/
def validateLoop (env : FofnEnv) : List PyStr → Except PyExc (List PyStr)
  | [] => .ok []
  | fn :: rest =>
    if fn = [] then .error (.assertionError [])
    else
      let fn2 := resolveFn env fn
      if ¬ env.isfile fn2 then
        .error (.assertionError
          [.str (pyS "File " ++ pyReprStr fn2 ++ pyS " is not a file.")])
      else if env.filesize fn2 = 0 then
        .error (.assertionError
          [.str (pyReprStr fn2 ++ pyS " has size "
                  ++ Nat.toDigits 10 (env.filesize fn2))])
      else (validateLoop env rest).map (fn2 :: ·)

/-- `yield_validated_fns(fofn)`, fully drained (as `validated_fns` drains
it): the validated, resolved names, or the first assertion failure. -/
def yield_validated_fns (env : FofnEnv) : Except PyExc (List PyStr) :=
  validateLoop env (listedFns env)

/-- An entry of the manifest passes validation: non-empty, an existing
regular file at its resolved name, of non-zero size. -/
def goodEntry (env : FofnEnv) (fn : PyStr) : Prop :=
  fn ≠ [] ∧ env.isfile (resolveFn env fn) = true
    ∧ env.filesize (resolveFn env fn) ≠ 0

instance (env : FofnEnv) (fn : PyStr) : Decidable (goodEntry env fn) := by
  unfold goodEntry; infer_instance

/-! ## Spec-side notions used to state the claims -/

/-- Stripping exactly the trailing line terminator (and nothing else) from
a raw line: the spec-side reading of "exactly the trailing line terminator
is stripped". -/
def stripNL (l : PyStr) : PyStr :=
  if endsNL l then l.dropLast else l

/-- The spec-side reading of "an error object that carries and exposes both
the exit code (as an integer field) and the original command string (as a
string field)": both values occur in the exception's payload. -/
def exposesFields (e : PyExc) (n : Int) (cmd : PyStr) : Prop :=
  PyVal.int n ∈ e.args ∧ PyVal.str cmd ∈ e.args

instance (e : PyExc) (n : Int) (cmd : PyStr) :
    Decidable (exposesFields e n cmd) := by
  unfold exposesFields; infer_instance

/-- Clean-exit run of `CapturedProcessReaderContext` on a command exiting
with code 1 and empty output. -/
def failRun : Option PyExc × Reader :=
  runCaptured (pyS "false") ⟨[], 1⟩ (fun _ => .ok ())

/-- The exception `failRun` propagates. -/
def failErr : PyExc :=
  .exc [.str (pyS "1 <- \x27false\x27")]

/-- A with-block that drains the lines and then raises
`ValueError("boom")`. -/
def boomBody : List PyStr → Except PyExc Unit :=
  fun _ => .error (.valueError [.str (pyS "boom")])

/-- Run of `CapturedProcessReaderContext` on a command with output
`"hi\n"` and exit code 3, whose with-block drains and then raises. -/
def boomRun : Option PyExc × Reader :=
  runCaptured (pyS "./run.sh") ⟨pyS "hi\n", 3⟩ boomBody

/-- A reader freshly entered on a child with stdout `"a \nb"` (a line with
a trailing space) and exit code 0. -/
def trailReader : Reader :=
  Reader.enter { cmd := pyS "./gen.sh" } ⟨pyS "a \nb", 0⟩

/-- A concrete FOFN environment: manifest at directory `/d` listing the
single relative name `x`, working directory `/w`, structured parse
succeeding, and a filesystem holding a non-empty regular file at the
resolved name `../d/x`. -/
def fofnEnv0 : FofnEnv where
  cwd := pyS "/w"
  realdir := pyS "/d"
  deser := some [pyS "x"]
  content := []
  isfile := fun p => p = pyS "../d/x"
  filesize := fun _ => 1

section FofnExamples

example : normpath (pyS "/a//b/../c/./d") = pyS "/a/c/d" := by decide
example : relpath (pyS "/d/x") (pyS "/w") = pyS "../d/x" := by decide
example : relpath (pyS "/w/q/x") (pyS "/w") = pyS "q/x" := by decide
example : pySplitWS (pyS "  a\nb\t c ") = [pyS "a", pyS "b", pyS "c"] := by decide

end FofnExamples

/-! ## Helper lemmas -/

lemma getLast?_append_right {x y : PyStr} (h : y ≠ []) :
    (x ++ y).getLast? = y.getLast? := by
  rw [List.getLast?_append]
  cases hy : y.getLast? with
  | none => exact absurd (List.getLast?_eq_none_iff.mp hy) h
  | some c => rfl

lemma endsNL_true_iff (s : PyStr) : endsNL s = true ↔ s.getLast? = some '\n' := by
  simp [endsNL]

lemma endsNL_false_iff (s : PyStr) :
    endsNL s = false ↔ s.getLast? ≠ some '\n' := by
  simp [endsNL]

lemma pyIsSpace_nl : pyIsSpace '\n' = true := by decide

lemma rstrip_append_nl (x : PyStr) : rstrip (x ++ ['\n']) = rstrip x := by
  simp [rstrip, List.dropWhile, pyIsSpace_nl]

lemma rstrip_eq_self_of_trailClean {s : PyStr}
    (h : ∀ c, s.getLast? = some c → pyIsSpace c = false) : rstrip s = s := by
  unfold rstrip
  cases hs : s.reverse with
  | nil =>
    have : s = [] := by simpa using congrArg List.reverse hs
    simp [this]
  | cons c cs =>
    have hc : s.getLast? = some c := by
      rw [← List.head?_reverse, hs]; rfl
    have hrev : s = (c :: cs).reverse := by rw [← hs, List.reverse_reverse]
    rw [List.dropWhile_cons, h c hc]
    simpa using hrev.symm

/-- The two line iterations (pipe iteration keeping `'\n'`, and
`splitlines_iter`) agree after `rstrip` of every line. -/
lemma iterLinesGo_map_rstrip (cs : PyStr) :
    ∀ acc, (iterLinesGo cs acc).map rstrip = (splitlinesGo cs acc).map rstrip := by
  induction cs with
  | nil => intro acc; rfl
  | cons c cs ih =>
    intro acc
    by_cases hc : c = '\n'
    · simp [iterLinesGo, splitlinesGo, hc, ih, rstrip_append_nl]
    · simp [iterLinesGo, splitlinesGo, hc, ih]

lemma getLast?_cons_of_ne_nil {c : Char} {cs : PyStr} (h : cs ≠ []) :
    (c :: cs).getLast? = cs.getLast? := by
  have h1 : (c :: cs : PyStr) = [c] ++ cs := rfl
  rw [h1, getLast?_append_right h]

lemma splitlinesGo_nil (acc : PyStr) :
    splitlinesGo [] acc = if acc = [] then [] else [acc.reverse] := rfl

lemma splitlinesGo_cons_nl (cs acc : PyStr) :
    splitlinesGo ('\n' :: cs) acc = acc.reverse :: splitlinesGo cs [] := by
  simp [splitlinesGo]

lemma splitlinesGo_cons_ne {c : Char} (hc : c ≠ '\n') (cs acc : PyStr) :
    splitlinesGo (c :: cs) acc = splitlinesGo cs (c :: acc) := by
  simp [splitlinesGo, hc]

lemma splitOnGo_cons_nl (cs acc : PyStr) :
    splitOnGo '\n' ('\n' :: cs) acc = acc.reverse :: splitOnGo '\n' cs [] := by
  simp [splitOnGo]

lemma splitOnGo_cons_ne {c : Char} (hc : c ≠ '\n') (cs acc : PyStr) :
    splitOnGo '\n' (c :: cs) acc = splitOnGo '\n' cs (c :: acc) := by
  simp [splitOnGo, hc]

/-- When the whole remaining text does not end in a newline (and is
non-empty), `splitlines_iter`'s worker agrees with a plain split on
newlines: the final segment is non-empty, so nothing is dropped. -/
lemma splitlinesGo_eq_splitOnGo (cs : PyStr) :
    ∀ acc, acc.reverse ++ cs ≠ [] → (acc.reverse ++ cs).getLast? ≠ some '\n' →
      splitlinesGo cs acc = splitOnGo '\n' cs acc := by
  induction cs with
  | nil =>
    intro acc hne _
    have hacc : acc ≠ [] := by
      intro h0; apply hne; simp [h0]
    simp [splitlinesGo_nil, splitOnGo, hacc]
  | cons c cs ih =>
    intro acc hne hnl
    by_cases hc : c = '\n'
    · subst hc
      have hcs : cs ≠ [] := by
        intro h0
        apply hnl
        rw [h0, getLast?_append_right (by simp)]
        rfl
      have hnl2 : cs.getLast? ≠ some '\n' := by
        rw [getLast?_append_right (by simp : ('\n' :: cs : PyStr) ≠ []),
          getLast?_cons_of_ne_nil hcs] at hnl
        exact hnl
      rw [splitlinesGo_cons_nl, splitOnGo_cons_nl,
        ih [] (by simpa using hcs) (by simpa using hnl2)]
    · have heq : (c :: acc).reverse ++ cs = acc.reverse ++ c :: cs := by
        simp
      rw [splitlinesGo_cons_ne hc, splitOnGo_cons_ne hc]
      exact ih (c :: acc) (by rw [heq]; exact hne) (by rw [heq]; exact hnl)

/-- `splitlines_iter` on text not ending in a newline is the literal
newline-split of the text. -/
lemma splitlines_iter_eq_specLines {t : PyStr} (h : endsNL t = false) :
    splitlines_iter t = specLines t := by
  by_cases ht : t = []
  · simp [ht, splitlines_iter, splitlinesGo, specLines]
  · rw [specLines, if_neg ht]
    exact splitlinesGo_eq_splitOnGo t []
      (by simpa using ht) (by simpa using (endsNL_false_iff t).mp h)

/-- The worker never returns an empty list of lines unless both the text
and the accumulator are empty. -/
lemma splitlinesGo_ne_nil (cs : PyStr) :
    ∀ acc, acc ≠ [] ∨ cs ≠ [] → splitlinesGo cs acc ≠ [] := by
  induction cs with
  | nil =>
    intro acc h
    have hacc : acc ≠ [] := by
      rcases h with h | h
      · exact h
      · exact absurd rfl h
    simp [splitlinesGo, hacc]
  | cons c cs ih =>
    intro acc _
    by_cases hc : c = '\n'
    · subst hc; simp [splitlinesGo_cons_nl]
    · rw [splitlinesGo_cons_ne hc]
      exact ih (c :: acc) (Or.inl (by simp))

/-- On a text whose characters are all non-newline, the worker yields one
single line: the pending accumulator followed by the whole text. -/
lemma splitlinesGo_nlFree (frag : PyStr) (hf : '\n' ∉ frag) (hne : frag ≠ []) :
    ∀ acc, splitlinesGo frag acc = [acc.reverse ++ frag] := by
  induction frag with
  | nil => exact absurd rfl hne
  | cons c cs ih =>
    intro acc
    have hc : c ≠ '\n' := fun h0 => hf (h0 ▸ List.mem_cons_self c cs)
    have hcs : '\n' ∉ cs := fun h0 => hf (List.mem_cons_of_mem c h0)
    by_cases h0 : cs = []
    · subst h0
      rw [splitlinesGo_cons_ne hc, splitlinesGo_nil]
      simp
    · rw [splitlinesGo_cons_ne hc, ih hcs h0]
      simp

/-- Appending a newline-free, non-empty fragment to a text that is empty or
newline-terminated appends exactly one more line. -/
lemma splitlinesGo_append_frag (frag : PyStr) (hf : '\n' ∉ frag)
    (hne : frag ≠ []) (cs : PyStr) :
    ∀ acc, cs.getLast? = some '\n' ∨ (cs = [] ∧ acc = []) →
      splitlinesGo (cs ++ frag) acc = splitlinesGo cs acc ++ [frag] := by
  induction cs with
  | nil =>
    intro acc h
    rcases h with h | ⟨_, h2⟩
    · simp at h
    · subst h2
      simp [splitlinesGo, splitlinesGo_nlFree frag hf hne]
  | cons c cs ih =>
    intro acc h
    have h2 : (c :: cs).getLast? = some '\n' := by
      rcases h with h | ⟨h1, _⟩
      · exact h
      · exact absurd h1 (by simp)
    by_cases hc : c = '\n'
    · subst hc
      by_cases h0 : cs = []
      · subst h0
        rw [List.cons_append, splitlinesGo_cons_nl, splitlinesGo_cons_nl,
          List.nil_append, splitlinesGo_nlFree frag hf hne, splitlinesGo_nil]
        simp
      · have hlast : cs.getLast? = some '\n' := by
          rwa [getLast?_cons_of_ne_nil h0] at h2
        rw [List.cons_append, splitlinesGo_cons_nl, splitlinesGo_cons_nl,
          ih [] (Or.inl hlast)]
        simp
    · have h0 : cs ≠ [] := by
        intro h1
        rw [h1] at h2
        simp at h2
        exact hc h2
      have hlast : cs.getLast? = some '\n' := by
        rwa [getLast?_cons_of_ne_nil h0] at h2
      rw [List.cons_append, splitlinesGo_cons_ne hc, splitlinesGo_cons_ne hc]
      exact ih (c :: acc) (Or.inl hlast)

/-- Appending a terminating newline to a non-empty text that does not
already end in one does not change the split. -/
lemma splitlinesGo_append_nl (cs : PyStr) :
    ∀ acc, acc.reverse ++ cs ≠ [] → (acc.reverse ++ cs).getLast? ≠ some '\n' →
      splitlinesGo (cs ++ ['\n']) acc = splitlinesGo cs acc := by
  induction cs with
  | nil =>
    intro acc hne _
    have hacc : acc ≠ [] := by
      intro h0; apply hne; simp [h0]
    rw [List.nil_append, splitlinesGo_cons_nl, splitlinesGo_nil,
      splitlinesGo_nil, if_neg hacc]
    simp
  | cons c cs ih =>
    intro acc hne hnl
    by_cases hc : c = '\n'
    · subst hc
      have hcs : cs ≠ [] := by
        intro h0
        apply hnl
        rw [h0, getLast?_append_right (by simp)]
        rfl
      have hnl2 : cs.getLast? ≠ some '\n' := by
        rw [getLast?_append_right (by simp : ('\n' :: cs : PyStr) ≠ []),
          getLast?_cons_of_ne_nil hcs] at hnl
        exact hnl
      rw [List.cons_append, splitlinesGo_cons_nl, splitlinesGo_cons_nl,
        ih [] (by simpa using hcs) (by simpa using hnl2)]
    · have heq : (c :: acc).reverse ++ cs = acc.reverse ++ c :: cs := by
        simp
      rw [List.cons_append, splitlinesGo_cons_ne hc, splitlinesGo_cons_ne hc]
      exact ih (c :: acc) (by rw [heq]; exact hne) (by rw [heq]; exact hnl)

lemma joinNL_cons_of_ne_nil {l : PyStr} {ls : List PyStr} (h : ls ≠ []) :
    joinNL (l :: ls) = l ++ '\n' :: joinNL ls := by
  cases ls with
  | nil => exact absurd rfl h
  | cons l2 ls2 => rfl

lemma getLast?_ne_nl_of_not_mem {l : PyStr} (h : '\n' ∉ l) :
    l.getLast? ≠ some '\n' :=
  fun hl => h (List.mem_of_mem_getLast? hl)

/-- Joining the split lines with single newlines restores the text, up to
one trailing newline (the worker invariant: `acc` holds no newline). -/
lemma joinNL_splitlinesGo (cs : PyStr) :
    ∀ acc, '\n' ∉ acc →
      joinNL (splitlinesGo cs acc)
        = if (acc.reverse ++ cs).getLast? = some '\n'
          then (acc.reverse ++ cs).dropLast else acc.reverse ++ cs := by
  induction cs with
  | nil =>
    intro acc hacc
    by_cases h0 : acc = []
    · subst h0
      simp [splitlinesGo_nil, joinNL]
    · have hnl : (acc.reverse ++ ([] : PyStr)).getLast? ≠ some '\n' := by
        rw [List.append_nil]
        exact getLast?_ne_nl_of_not_mem (by simpa [List.mem_reverse] using hacc)
      rw [splitlinesGo_nil, if_neg h0, if_neg hnl, List.append_nil]
      rfl
  | cons c cs ih =>
    intro acc hacc
    by_cases hc : c = '\n'
    · subst hc
      rw [splitlinesGo_cons_nl]
      by_cases h0 : cs = []
      · subst h0
        have hlast : (acc.reverse ++ ['\n' ] : PyStr).getLast? = some '\n' :=
          getLast?_append_right (by simp)
        rw [splitlinesGo_nil, if_pos rfl, if_pos hlast,
          List.dropLast_append_of_ne_nil _ (by simp)]
        simp [joinNL]
      · have hsplit : splitlinesGo cs [] ≠ [] :=
          splitlinesGo_ne_nil cs [] (Or.inr h0)
        have hlasteq : (acc.reverse ++ '\n' :: cs : PyStr).getLast?
            = cs.getLast? := by
          rw [getLast?_append_right (by simp), getLast?_cons_of_ne_nil h0]
        rw [joinNL_cons_of_ne_nil hsplit]
        have ih0 := ih [] (by simp)
        simp only [List.reverse_nil, List.nil_append] at ih0
        rw [ih0]
        by_cases hl : cs.getLast? = some '\n'
        · rw [if_pos hl, if_pos (by rw [hlasteq]; exact hl),
            List.dropLast_append_of_ne_nil _ (by simp),
            show ('\n' :: cs : PyStr) = ['\n'] ++ cs from rfl,
            List.dropLast_append_of_ne_nil _ h0]
          rfl
        · rw [if_neg hl, if_neg (by rw [hlasteq]; exact hl)]
    · have heq : (c :: acc).reverse ++ cs = acc.reverse ++ c :: cs := by
        simp
      rw [splitlinesGo_cons_ne hc, ih (c :: acc) (by
        intro hmem
        rcases List.mem_cons.mp hmem with h1 | h1
        · exact hc h1.symm
        · exact hacc h1), heq]

lemma exceptMap_ok_iff {α β γ : Type} (f : α → β) (x : Except γ α) :
    (∃ out, x.map f = .ok out) ↔ ∃ out, x = .ok out := by
  cases x <;> simp [Except.map]

/-- The validation loop succeeds exactly when every listed entry is good. -/
lemma validateLoop_ok_iff (env : FofnEnv) :
    ∀ fns, (∃ out, validateLoop env fns = .ok out)
      ↔ ∀ fn ∈ fns, goodEntry env fn := by
  intro fns
  induction fns with
  | nil => simp [validateLoop]
  | cons fn rest ih =>
    by_cases h1 : fn = []
    · simp [validateLoop, h1, goodEntry]
    · by_cases h2 : env.isfile (resolveFn env fn) = true
      · by_cases h3 : env.filesize (resolveFn env fn) = 0
        · simp [validateLoop, h1, h2, h3, goodEntry]
        · rw [show validateLoop env (fn :: rest)
              = (validateLoop env rest).map (resolveFn env fn :: ·) from by
            simp [validateLoop, h1, h2, h3]]
          rw [exceptMap_ok_iff, ih]
          simp [goodEntry, h1, h2, h3]
      · simp [validateLoop, h1, h2, goodEntry]

/-- On an all-good manifest, the loop returns every entry, resolved. -/
lemma validateLoop_eq_map (env : FofnEnv) :
    ∀ fns, (∀ fn ∈ fns, goodEntry env fn) →
      validateLoop env fns = .ok (fns.map (resolveFn env)) := by
  intro fns
  induction fns with
  | nil => intro _; rfl
  | cons fn rest ih =>
    intro h
    obtain ⟨⟨h1, h2, h3⟩, hrest⟩ := List.forall_mem_cons.mp h
    rw [show validateLoop env (fn :: rest)
        = (validateLoop env rest).map (resolveFn env fn :: ·) from by
      simp [validateLoop, h1, h2, h3]]
    rw [ih hrest]
    rfl

/-! ## Claim theorems -/

/-- Claim C1 (code bug evidence): the claim says a caller exception
propagates out of the scope unmodified, with the exit-code check skipped,
even when the command had a non-zero exit status.  On a
`CapturedProcessReaderContext` over a command that exits with code 3,
whose with-block drains the lines and then raises `ValueError("boom")`,
`__exit__` reads the exit code that `communicate()` already harvested and
raises `Exception("3 <- './run.sh'")`, which replaces the caller's
exception — contradicting both the claim and the readlines docstring
("Any exception within the 'with-block' is propagated"). -/
theorem C1_exception_path_check_fires :
    boomRun.1 = some (.exc [.str (pyS "3 <- \x27./run.sh\x27")])
      ∧ boomRun.1 ≠ some (.valueError [.str (pyS "boom")]) := by
  decide

/-- Claim C2 (counterexample): the error raised on a non-zero clean exit
does not carry the exit code as an integer field nor the command as a
string field; its only payload is one formatted message string. -/
theorem C2_no_fields_exposed :
    failRun.1 = some failErr ∧ ¬ exposesFields failErr 1 (pyS "false") := by
  decide

/-- Claim C2 (amended): on a non-zero exit code with a clean with-block,
scope-exit of either reader variant raises a generic `Exception` whose
single payload is the message string `repr(exit_code) ++ " <- " ++
repr(command)`; exit code and command are embedded in that message text,
not exposed as separate fields. -/
theorem C2_amended_message_error :
    ∀ (cmd : PyStr) (child : Child) (n : Int)
      (bodyC bodyS : List PyStr → Except PyExc Unit),
      child.code = n → n ≠ 0 →
      bodyC (splitlines_iter child.stdout) = .ok () →
      bodyS ((iterLines child.stdout).map rstrip) = .ok () →
      (runCaptured cmd child bodyC).1
          = some (.exc [.str (intRepr n ++ pyS " <- " ++ pyReprStr cmd)])
        ∧ (runStreamed cmd child bodyS).1
          = some (.exc [.str (intRepr n ++ pyS " <- " ++ pyReprStr cmd)]) := by
  intro cmd child n bodyC bodyS hcode hn hC hS
  subst hcode
  constructor
  · simp [runCaptured, Reader.enter, CapturedProcessReaderContext.readlines,
      Reader.exitR, hC, hn]
  · simp [runStreamed, Reader.enter, StreamedProcessReaderContext.readlines,
      Reader.exitR, hS, hn]

/-- Witness for the amended claim C2 at a concrete input. -/
theorem C2_amended_message_error_witness :
    (runCaptured (pyS "x") ⟨[], 2⟩ (fun _ => .ok ())).1
        = some (.exc [.str (intRepr 2 ++ pyS " <- " ++ pyReprStr (pyS "x"))])
      ∧ (runStreamed (pyS "x") ⟨[], 2⟩ (fun _ => .ok ())).1
        = some (.exc [.str (intRepr 2 ++ pyS " <- " ++ pyReprStr (pyS "x"))]) :=
  C2_amended_message_error (pyS "x") ⟨[], 2⟩ 2 _ _ rfl (by decide) rfl rfl

/-- Claim C3 (counterexample): on the output `"a \nb"` (first line has a
trailing space, no trailing newline) the two reader variants do not yield
the same sequence: the captured variant yields `["a ", "b"]`, the streamed
one `["a", "b"]` because of its `rstrip()`. -/
theorem C3_variants_differ :
    (CapturedProcessReaderContext.readlines trailReader).map Prod.fst
      ≠ (StreamedProcessReaderContext.readlines trailReader).map Prod.fst := by
  decide

/-- Claim C3 (amended): for a command whose output has no trailing newline
and none of whose lines ends in whitespace, both fully drained variants
yield exactly the literal stdout lines, in order. -/
theorem C3_amended_equal_lines :
    ∀ (cmd : PyStr) (child : Child),
      endsNL child.stdout = false →
      (∀ l ∈ specLines child.stdout, rstrip l = l) →
      (CapturedProcessReaderContext.readlines
            (Reader.enter { cmd := cmd } child)).map Prod.fst
          = some (specLines child.stdout)
        ∧ (StreamedProcessReaderContext.readlines
            (Reader.enter { cmd := cmd } child)).map Prod.fst
          = some (specLines child.stdout) := by
  intro cmd child hnl hclean
  have hmap : (specLines child.stdout).map rstrip = specLines child.stdout := by
    rw [show specLines child.stdout
        = (specLines child.stdout).map id from (List.map_id _).symm]
    simp only [List.map_map]
    exact List.map_eq_map_iff.mpr (by simpa using hclean)
  constructor
  · simp [CapturedProcessReaderContext.readlines, Reader.enter,
      splitlines_iter_eq_specLines hnl]
  · have h2 := iterLinesGo_map_rstrip child.stdout []
    have h3 : splitlinesGo child.stdout [] = specLines child.stdout :=
      splitlines_iter_eq_specLines hnl
    simp [StreamedProcessReaderContext.readlines, Reader.enter, iterLines,
      h2, h3, hmap]

/-- Witness for the amended claim C3 at a concrete input. -/
theorem C3_amended_equal_lines_witness :
    (CapturedProcessReaderContext.readlines
          (Reader.enter { cmd := pyS "seq 2" } ⟨pyS "1\n2", 0⟩)).map Prod.fst
        = some (specLines (pyS "1\n2"))
      ∧ (StreamedProcessReaderContext.readlines
          (Reader.enter { cmd := pyS "seq 2" } ⟨pyS "1\n2", 0⟩)).map Prod.fst
        = some (specLines (pyS "1\n2")) :=
  C3_amended_equal_lines (pyS "seq 2") ⟨pyS "1\n2", 0⟩ (by decide) (by decide)

/-- Claim C4 (counterexample): the streamed reader does not strip exactly
the trailing line terminator: on the raw lines of `"a \nb"` it yields
`["a", "b"]`, not `["a ", "b"]` — the trailing space before the newline is
stripped too. -/
theorem C4_not_only_terminator :
    (StreamedProcessReaderContext.readlines trailReader).map Prod.fst
      ≠ some ((iterLines (pyS "a \nb")).map stripNL) := by
  decide

/-- Claim C4 (amended): every line yielded by
`StreamedProcessReaderContext.readlines` equals the corresponding literal
output line with all of its trailing whitespace stripped — the line
terminator and also any trailing spaces or tabs that precede it
(`line.rstrip()`). -/
theorem C4_amended_rstrip_lines :
    ∀ (cmd : PyStr) (child : Child),
      (StreamedProcessReaderContext.readlines
          (Reader.enter { cmd := cmd } child)).map Prod.fst
        = some ((splitlines_iter child.stdout).map rstrip) := by
  intro cmd child
  have h2 := iterLinesGo_map_rstrip child.stdout []
  simp [StreamedProcessReaderContext.readlines, Reader.enter, iterLines,
    splitlines_iter, h2]

/-- Claim C5: `splitlines_iter` has splitlines-style trailing-boundary
behavior: the four quoted examples hold; in general a trailing fragment
with no terminating newline is still yielded as a final line, and a
terminating newline after the last record adds no spurious empty entry. -/
theorem C5_splitlines_boundary :
    splitlines_iter [] = []
      ∧ splitlines_iter (pyS "a\nb") = [pyS "a", pyS "b"]
      ∧ splitlines_iter (pyS "a\nb\n") = [pyS "a", pyS "b"]
      ∧ splitlines_iter (pyS "a\nb\n\n") = [pyS "a", pyS "b", pyS ""]
      ∧ (∀ t frag : PyStr, '\n' ∉ frag → frag ≠ [] →
          (t = [] ∨ endsNL t = true) →
          splitlines_iter (t ++ frag) = splitlines_iter t ++ [frag])
      ∧ (∀ t : PyStr, t ≠ [] → endsNL t = false →
          splitlines_iter (t ++ ['\n']) = splitlines_iter t) := by
  refine ⟨by decide, by decide, by decide, by decide, ?_, ?_⟩
  · intro t frag hf hne ht
    unfold splitlines_iter
    apply splitlinesGo_append_frag frag hf hne t
    rcases ht with h | h
    · exact Or.inr ⟨h, rfl⟩
    · exact Or.inl ((endsNL_true_iff t).mp h)
  · intro t h1 h2
    unfold splitlines_iter
    exact splitlinesGo_append_nl t [] (by simpa using h1)
      (by simpa using (endsNL_false_iff t).mp h2)

/-- Witness for claim C5's general conjuncts at concrete inputs. -/
theorem C5_splitlines_boundary_witness :
    splitlines_iter (pyS "a\n" ++ pyS "b")
        = splitlines_iter (pyS "a\n") ++ [pyS "b"]
      ∧ splitlines_iter (pyS "ab" ++ ['\n']) = splitlines_iter (pyS "ab") :=
  ⟨C5_splitlines_boundary.2.2.2.2.1 (pyS "a\n") (pyS "b")
      (by decide) (by decide) (Or.inr (by decide)),
   C5_splitlines_boundary.2.2.2.2.2 (pyS "ab") (by decide) (by decide)⟩

/-- Claim C6 (counterexample): on the scope-exit path that detects a
non-zero exit code and raises, the process handle is NOT released: the
`raise` happens before `del self.proc`, so the reader still holds the
handle after the failing exit. -/
theorem C6_handle_survives_failure :
    failRun.1 = some failErr ∧ failRun.2.proc ≠ none := by
  decide

/-- Claim C6 (amended): the process handle is created on scope-entry and
released on exactly the scope-exit paths that do not raise; on the path
where scope-exit detects a non-zero exit code and raises, the handle
remains set (the delete is skipped by the raise). -/
theorem C6_amended_handle_lifecycle :
    (∀ (r : Reader) (child : Child),
      (r.enter child).proc = some ⟨child.stdout, child.code, none⟩)
      ∧ (∀ (r : Reader) (etype : Option PyExc) (p : Proc), r.proc = some p →
          ((r.exitR etype).2.proc = none ↔ (r.exitR etype).1 = none)) := by
  constructor
  · intro r child
    rfl
  · intro r etype p hp
    cases etype with
    | none =>
      by_cases h0 : p.code = 0 <;>
        simp [Reader.exitR, hp, h0]
    | some e =>
      cases hrc : p.returncode with
      | none => simp [Reader.exitR, hp, hrc]
      | some n =>
        by_cases h0 : n = 0 <;>
          simp [Reader.exitR, hp, hrc, h0]

/-- Witness for the amended claim C6 at a concrete reader state. -/
theorem C6_amended_handle_lifecycle_witness :
    (Reader.mk (pyS "true") none none |>.enter ⟨[], 0⟩).proc
        = some ⟨[], 0, none⟩
      ∧ (((Reader.mk (pyS "true") (some ⟨[], 0, none⟩) none).exitR none).2.proc
            = none
          ↔ ((Reader.mk (pyS "true") (some ⟨[], 0, none⟩) none).exitR none).1
            = none) :=
  ⟨C6_amended_handle_lifecycle.1 (Reader.mk (pyS "true") none none) ⟨[], 0⟩,
   C6_amended_handle_lifecycle.2 (Reader.mk (pyS "true")
      (some ⟨[], 0, none⟩) none) none ⟨[], 0, none⟩ rfl⟩

/-- Claim C7: the FOFN validator takes the structured parse when it
succeeds and otherwise falls back to whitespace-splitting the text;
validation succeeds exactly when every listed entry is non-empty, an
existing regular file at its name resolved against the manifest's own
directory, and of non-zero size — any bad entry aborts the whole
validation with an error, and on success every entry is yielded
resolved. -/
theorem C7_fofn_validation :
    ∀ env : FofnEnv,
      (env.deser = none → yield_validated_fns env
          = validateLoop env (pySplitWS (pyStrip env.content)))
        ∧ (∀ fns, env.deser = some fns →
            yield_validated_fns env = validateLoop env fns)
        ∧ ((∃ out, yield_validated_fns env = .ok out)
            ↔ ∀ fn ∈ listedFns env, goodEntry env fn)
        ∧ ((∀ fn ∈ listedFns env, goodEntry env fn) →
            yield_validated_fns env
              = .ok ((listedFns env).map (resolveFn env))) := by
  intro env
  refine ⟨fun h => by simp [yield_validated_fns, listedFns, h],
    fun fns h => by simp [yield_validated_fns, listedFns, h],
    validateLoop_ok_iff env (listedFns env),
    validateLoop_eq_map env (listedFns env)⟩

/-- Witness for claim C7 on a concrete environment: a manifest at `/d`
listing `x`, run from `/w`, validates and yields the resolved `../d/x`. -/
theorem C7_fofn_validation_witness :
    yield_validated_fns fofnEnv0
      = .ok ((listedFns fofnEnv0).map (resolveFn fofnEnv0)) :=
  (C7_fofn_validation fofnEnv0).2.2.2 (by decide)

/-- Claim C8: when a command exits cleanly but produces no output,
`syscall` logs a warning and returns the empty output without raising. -/
theorem C8_empty_output_warning :
    ∀ (cmd : PyStr) (child : Child), child.code = 0 → child.stdout = [] →
      ∃ logs, syscall cmd child = .ok ([], logs)
        ∧ (pyS "WARNING: " ++ pyReprStr cmd
            ++ pyS " failed to produce any output.") ∈ logs := by
  intro cmd child h0 hout
  refine ⟨[pyS "DEPRECATED falcon_kit.util.io.syscall()",
           pyS "$ " ++ pyReprStr cmd ++ pyS " >",
           pyS "WARNING: " ++ pyReprStr cmd
             ++ pyS " failed to produce any output."], ?_, ?_⟩
  · simp [syscall, h0, hout]
  · simp

/-- Witness for claim C8 at a concrete input. -/
theorem C8_empty_output_warning_witness :
    ∃ logs, syscall (pyS "true") ⟨[], 0⟩ = .ok ([], logs)
      ∧ (pyS "WARNING: " ++ pyReprStr (pyS "true")
          ++ pyS " failed to produce any output.") ∈ logs :=
  C8_empty_output_warning (pyS "true") ⟨[], 0⟩ rfl rfl

/-- Claim C10: joining `splitlines_iter t` with single newlines
reconstructs `t` exactly when `t` is empty or does not end in a newline,
and reconstructs `t` minus its final newline when it does. -/
theorem C10_join_roundtrip :
    ∀ t : PyStr,
      (endsNL t = false → joinNL (splitlines_iter t) = t)
        ∧ (endsNL t = true → joinNL (splitlines_iter t) = t.dropLast) := by
  intro t
  have h := joinNL_splitlinesGo t [] (by simp)
  simp only [List.reverse_nil, List.nil_append] at h
  constructor
  · intro hf
    rw [splitlines_iter, h, if_neg ((endsNL_false_iff t).mp hf)]
  · intro ht
    rw [splitlines_iter, h, if_pos ((endsNL_true_iff t).mp ht)]

/-- Witness for claim C10 at concrete inputs. -/
theorem C10_join_roundtrip_witness :
    joinNL (splitlines_iter (pyS "ab")) = pyS "ab"
      ∧ joinNL (splitlines_iter (pyS "a\n")) = (pyS "a\n").dropLast :=
  ⟨(C10_join_roundtrip (pyS "ab")).1 (by decide),
   (C10_join_roundtrip (pyS "a\n")).2 (by decide)⟩

end FalconIo
